import Mathlib

/-!
Shallow embedding of `src/client.py` (`LiveClient`), the live-stream watch
client.  The external collaborators (playwright browser session, httpx
control-plane client, wall clock) are modelled as oracle inputs: boolean
streams saying whether each awaited operation succeeds, and the
process-wide `is_running` flag as a `Nat → Bool` stream indexed by the
read occurrence (one read per minute iteration, plus the post-loop read,
which we index by the loop's exit minute — faithful because the flag is
only ever cleared, never set back, by `run`).  Observable behaviour is a
list of `Event`s: every outbound server request, every session teardown,
every sleep, and the success log.  Python float arithmetic on `progress`
is modelled exactly over `ℚ`.
-/

namespace BScript

/-- Observable actions of the client, in program order. -/
inductive Event where
  | heartbeat
  | fetchTask
  | progressReport (taskId : Nat) (watchedTime : Nat) (progress : ℚ)
  | errorReport (taskId : Nat) (errorMessage : String) (screenshotPath : String)
  | screenshotTaken (path : String)
  | activityTick
  | sleepMinute
  | closeLive
  | logComplete (roomId : String)
  deriving Repr, DecidableEq

/-- A watch task as fetched from the server (`data` of
`/api/tasks/client/{client_id}`): the fields `execute_watch_task` reads. -/
structure WatchTask where
  id : Nat
  room_id : String
  total_watch_time : Nat
  watched_time : Nat
  deriving Repr, DecidableEq

/-- Oracle for `handle_stream_error`: does `page.screenshot` succeed, does
the error-report POST go through without raising, and with what status. -/
structure ErrorEnv where
  screenshotOk : Bool
  reportTransportOk : Bool
  reportStatus : Nat
  deriving Repr, DecidableEq

/-- The path `f"error_screenshots/{task_id}_{timestamp}.png"` from
`handle_stream_error` (line 264); the wall-clock timestamp is an input. -/
def screenshot_path (taskId : Nat) (timestamp : String) : String :=
  "error_screenshots/" ++ toString taskId ++ "_" ++ timestamp ++ ".png"

/-- Function `handle_stream_error` (lines 259-281): take a screenshot, then POST
`/api/tasks/error` with task id, error message and screenshot path.  The
whole body is in one `try`; if the screenshot raises, the POST is never
reached; if the POST raises, the report is not sent; a non-200 status is
only logged.  All exceptions are absorbed. -/
def handle_stream_error (env : ErrorEnv) (taskId : Nat) (errorMsg : String)
    (timestamp : String) : List Event :=
  if env.screenshotOk then
    Event.screenshotTaken (screenshot_path taskId timestamp) ::
      (if env.reportTransportOk then
        [Event.errorReport taskId errorMsg (screenshot_path taskId timestamp)]
      else [])
  else []

/-- Oracle for one minute iteration of the watch loop: does
`wait_for_selector('.live-player-mounter')` succeed (`pageAlive`), the
exception text if not, does `simulate_user_activity` succeed, and does
`update_progress` get acknowledged. -/
structure MinuteEnv where
  pageAlive : Bool
  failMsg : String
  activityOk : Bool
  progressOk : Bool

/-- Line 407: `progress = ((minute + 1) / total_time) * 100`. -/
def progressOf (minute total : Nat) : ℚ :=
  (((minute : ℚ) + 1) / (total : ℚ)) * 100

/-- Outcome of the minute loop: its events, the minute index at which the
loop stopped (`total_watch_time` on natural exhaustion), and whether it
returned through the stream-error path. -/
structure LoopExit where
  events : List Event
  exitMinute : Nat
  errored : Bool
  deriving Repr, DecidableEq

/-- The minute loop of `execute_watch_task` (lines 382-413):
`for minute in range(watched_time, total_time)`.  Each iteration: break if
`is_running` is cleared; if a page exists, check the player mount and run
one activity tick — an exception there runs `handle_stream_error`, then
`close_live`, clears the slot and returns; otherwise sleep one minute and
send a progress report with `watched_time = minute+1` (the report's
success only affects logging). -/
def watchMinutes (t : WatchTask) (running : Nat → Bool) (menv : Nat → MinuteEnv)
    (errEnv : ErrorEnv) (ts : String) (page : Bool) (m : Nat) : LoopExit :=
  if h : m < t.total_watch_time then
    if running m = false then
      ⟨[], m, false⟩
    else if page = true ∧ (menv m).pageAlive = false then
      ⟨handle_stream_error errEnv t.id (menv m).failMsg ts ++ [Event.closeLive], m, true⟩
    else
      let rest := watchMinutes t running menv errEnv ts page (m + 1)
      ⟨(if page then [Event.activityTick] else []) ++
        Event.sleepMinute ::
          Event.progressReport t.id (m + 1) (progressOf m t.total_watch_time) ::
            rest.events,
        rest.exitMinute, rest.errored⟩
  else ⟨[], m, false⟩
termination_by t.total_watch_time - m

/-- Oracle for one run of `execute_watch_task`: is `self.browser` already
set on entry, does `init_browser` succeed if attempted, does the cookie
injection succeed, does `watch_live_room` succeed, the `is_running` stream,
the per-minute oracles, the error-handler oracle and the timestamp. -/
structure ExecEnv where
  browserPresent : Bool
  initOk : Bool
  cookieOk : Bool
  openOk : Bool
  running : Nat → Bool
  menv : Nat → MinuteEnv
  errEnv : ErrorEnv
  ts : String

/-- Result of one run of `execute_watch_task`: its events, whether
`self.current_task = None` was executed, and whether the
"watch task complete" success log was emitted. -/
structure ExecResult where
  events : List Event
  slotCleared : Bool
  completeLogged : Bool
  deriving Repr, DecidableEq

/-- Function `execute_watch_task` (lines 355-426).  If no browser is present and
`init_browser` fails: log and `return` — the slot is NOT cleared
(lines 359-362).  If `watch_live_room` fails: clear the slot and return
with no server contact (lines 376-379).  Otherwise run the minute loop;
on its stream-error return the slot is cleared (lines 398-402).  After the
loop, `close_live`, then only `if self.is_running` log completion and
clear the slot (lines 415-421); on an early flag-cleared break that read
of the flag sees the same cleared value, so we index it by the exit
minute. -/
def execute_watch_task (t : WatchTask) (env : ExecEnv) : ExecResult :=
  if env.browserPresent = false ∧ env.initOk = false then
    ⟨[], false, false⟩
  else if env.openOk = false then
    ⟨[], true, false⟩
  else
    let le := watchMinutes t env.running env.menv env.errEnv env.ts true t.watched_time
    if le.errored then
      ⟨le.events, true, false⟩
    else if env.running le.exitMinute then
      ⟨le.events ++ [Event.closeLive, Event.logComplete t.room_id], true, true⟩
    else
      ⟨le.events ++ [Event.closeLive], false, false⟩

/-- Recognizer for progress-report events. -/
def isProgressReport : Event → Bool
  | .progressReport _ _ _ => true
  | _ => false

/-- Recognizer for error-report events. -/
def isErrorReport : Event → Bool
  | .errorReport _ _ _ => true
  | _ => false

/-- The progress reports of a trace, in order. -/
def progressReports (es : List Event) : List Event :=
  es.filter isProgressReport

/-- The error reports of a trace, in order. -/
def errorReports (es : List Event) : List Event :=
  es.filter isErrorReport

/-- The progress value carried by a progress-report event. -/
def progressValue : Event → ℚ
  | .progressReport _ _ p => p
  | _ => 0

/-- The events of one successful minute iteration at minute `m`. -/
def minuteBlock (t : WatchTask) (m : Nat) : List Event :=
  [Event.activityTick, Event.sleepMinute,
    Event.progressReport t.id (m + 1) (progressOf m t.total_watch_time)]

/-- On a run where the flag stays set and every player check passes, the
minute loop from `m` runs all minutes `m, …, total_watch_time - 1`. -/
lemma watchMinutes_all_ok (t : WatchTask) (running : Nat → Bool) (menv : Nat → MinuteEnv)
    (errEnv : ErrorEnv) (ts : String) :
    ∀ n m, m + n = t.total_watch_time →
      (∀ j, m ≤ j → j < t.total_watch_time → running j = true) →
      (∀ j, m ≤ j → j < t.total_watch_time → (menv j).pageAlive = true) →
      watchMinutes t running menv errEnv ts true m =
        ⟨(List.range' m n).flatMap (minuteBlock t), t.total_watch_time, false⟩ := by
  intro n
  induction n with
  | zero =>
    intro m hmn _ _
    have hm : ¬ m < t.total_watch_time := by omega
    rw [watchMinutes, dif_neg hm]
    simp only [List.range'_zero, List.flatMap_nil]
    exact congrArg (fun x => LoopExit.mk [] x false) (by omega)
  | succ n ih =>
    intro m hmn hrun halive
    have hm : m < t.total_watch_time := by omega
    have hr : running m = true := hrun m le_rfl hm
    have ha : (menv m).pageAlive = true := halive m le_rfl hm
    rw [watchMinutes, dif_pos hm, if_neg (by simp [hr]), if_neg (by simp [ha])]
    have hrest := ih (m + 1) (by omega)
      (fun j hj hjT => hrun j (by omega) hjT)
      (fun j hj hjT => halive j (by omega) hjT)
    simp only [hrest, List.range'_succ, List.flatMap_cons, minuteBlock, if_pos rfl]
    rfl

/-- If the flag is cleared at minute `k < total_watch_time` and everything
before `k` went fine, the minute loop from `m ≤ k` runs minutes
`m, …, k - 1` and then breaks at the top of iteration `k`. -/
lemma watchMinutes_stop (t : WatchTask) (running : Nat → Bool) (menv : Nat → MinuteEnv)
    (errEnv : ErrorEnv) (ts : String) (k : Nat)
    (hkT : k < t.total_watch_time) (hstop : running k = false) :
    ∀ n m, m + n = k →
      (∀ j, m ≤ j → j < k → running j = true) →
      (∀ j, m ≤ j → j < k → (menv j).pageAlive = true) →
      watchMinutes t running menv errEnv ts true m =
        ⟨(List.range' m n).flatMap (minuteBlock t), k, false⟩ := by
  intro n
  induction n with
  | zero =>
    intro m hmn _ _
    have hmk : m = k := by omega
    subst hmk
    rw [watchMinutes, dif_pos hkT, if_pos hstop]
    simp
  | succ n ih =>
    intro m hmn hrun halive
    have hmk : m < k := by omega
    have hm : m < t.total_watch_time := by omega
    have hr : running m = true := hrun m le_rfl hmk
    have ha : (menv m).pageAlive = true := halive m le_rfl hmk
    rw [watchMinutes, dif_pos hm, if_neg (by simp [hr]), if_neg (by simp [ha])]
    have hrest := ih (m + 1) (by omega)
      (fun j hj hjk => hrun j (by omega) hjk)
      (fun j hj hjk => halive j (by omega) hjk)
    simp only [hrest, List.range'_succ, List.flatMap_cons, minuteBlock, if_pos rfl]
    rfl

/-- If the player check fails at minute `k` (flag still set there) and
everything before `k` went fine, the minute loop from `m ≤ k` runs minutes
`m, …, k - 1`, then takes the stream-error path at `k`: error handler,
session teardown, errored return. -/
lemma watchMinutes_streamError (t : WatchTask) (running : Nat → Bool) (menv : Nat → MinuteEnv)
    (errEnv : ErrorEnv) (ts : String) (k : Nat)
    (hkT : k < t.total_watch_time) (hrk : running k = true)
    (hfail : (menv k).pageAlive = false) :
    ∀ n m, m + n = k →
      (∀ j, m ≤ j → j < k → running j = true) →
      (∀ j, m ≤ j → j < k → (menv j).pageAlive = true) →
      watchMinutes t running menv errEnv ts true m =
        ⟨(List.range' m n).flatMap (minuteBlock t) ++
          (handle_stream_error errEnv t.id (menv k).failMsg ts ++ [Event.closeLive]),
         k, true⟩ := by
  intro n
  induction n with
  | zero =>
    intro m hmn _ _
    have hmk : m = k := by omega
    subst hmk
    rw [watchMinutes, dif_pos hkT, if_neg (by simp [hrk]), if_pos ⟨rfl, hfail⟩]
    simp
  | succ n ih =>
    intro m hmn hrun halive
    have hmk : m < k := by omega
    have hm : m < t.total_watch_time := by omega
    have hr : running m = true := hrun m le_rfl hmk
    have ha : (menv m).pageAlive = true := halive m le_rfl hmk
    rw [watchMinutes, dif_pos hm, if_neg (by simp [hr]), if_neg (by simp [ha])]
    have hrest := ih (m + 1) (by omega)
      (fun j hj hjk => hrun j (by omega) hjk)
      (fun j hj hjk => halive j (by omega) hjk)
    simp only [hrest, List.range'_succ, List.flatMap_cons, minuteBlock, if_pos rfl]
    rfl

/-- The progress reports of a run of successful minute blocks are one
report per minute, in order. -/
lemma progressReports_flatMap (t : WatchTask) (l : List Nat) :
    progressReports (l.flatMap (minuteBlock t)) =
      l.map (fun m => Event.progressReport t.id (m + 1) (progressOf m t.total_watch_time)) := by
  induction l with
  | nil => rfl
  | cons a l ih =>
    simp only [List.flatMap_cons, progressReports, List.filter_append] at *
    rw [ih]
    rfl

/-- Successful minute blocks contain no error report. -/
lemma errorReports_flatMap (t : WatchTask) (l : List Nat) :
    errorReports (l.flatMap (minuteBlock t)) = [] := by
  induction l with
  | nil => rfl
  | cons a l ih =>
    simp only [List.flatMap_cons, errorReports, List.filter_append] at *
    rw [ih]
    rfl

/-- Each successful minute block contains exactly one one-minute sleep. -/
lemma count_sleep_flatMap (t : WatchTask) (l : List Nat) :
    (l.flatMap (minuteBlock t)).count Event.sleepMinute = l.length := by
  induction l with
  | nil => rfl
  | cons a l ih =>
    simp only [List.flatMap_cons, List.count_append, ih, minuteBlock, List.length_cons]
    simp [List.count_cons]
    omega

/-- Successful minute blocks contain no completion log. -/
lemma logComplete_not_mem_flatMap (t : WatchTask) (l : List Nat) (r : String) :
    Event.logComplete r ∉ l.flatMap (minuteBlock t) := by
  induction l with
  | nil => simp
  | cons a l ih =>
    simp only [List.flatMap_cons, List.mem_append, minuteBlock]
    rintro (h | h)
    · simp at h
    · exact ih h

/-! ### The acquisition loop and the single-slot invariant -/

/-- The state shared between the acquisition loop and the execution
activities it spawns: `self.current_task` and the number of in-flight
execution activities. -/
structure AcqState where
  slot : Option WatchTask
  inflight : Nat
  deriving Repr, DecidableEq

/-- One cycle of `task_check_loop` (lines 317-336): only when
`self.current_task` is empty does it GET `/api/tasks/client/{id}`; on a
`code == 0` response with non-empty data it writes the slot and spawns an
execution activity.  `resp = none` covers transport failures and
no-task/malformed responses alike (both only log and fall through to the
sleep). -/
def task_check_cycle (s : AcqState) (resp : Option WatchTask) : List Event × AcqState :=
  match s.slot with
  | some _ => ([], s)
  | none =>
    match resp with
    | none => ([Event.fetchTask], s)
    | some t => ([Event.fetchTask], ⟨some t, s.inflight + 1⟩)

/-- An execution activity terminating.  `execute_watch_task` clears the
slot on completion and on its reporting failure paths, but not on
browser-init failure or a flag-cleared stop, so termination may or may not
clear it. -/
def execFinish (s : AcqState) (clears : Bool) : AcqState :=
  ⟨if clears then none else s.slot, s.inflight - 1⟩

/-- Interleaved steps of the acquisition loop and execution activities. -/
inductive SysStep : AcqState → AcqState → Prop
  | acq (resp : Option WatchTask) (s : AcqState) :
      SysStep s (task_check_cycle s resp).2
  | finish (clears : Bool) (s : AcqState) (h : 0 < s.inflight) :
      SysStep s (execFinish s clears)

/-- States reachable from startup (`current_task = None`, nothing
in flight). -/
inductive Reachable : AcqState → Prop
  | init : Reachable ⟨none, 0⟩
  | step {s s' : AcqState} : Reachable s → SysStep s s' → Reachable s'

/-- The single-slot discipline: never more than one execution in flight,
and an empty slot means nothing is in flight. -/
lemma reachable_inflight {s : AcqState} (h : Reachable s) :
    s.inflight ≤ 1 ∧ (s.slot = none → s.inflight = 0) := by
  induction h with
  | init => exact ⟨by simp, fun _ => rfl⟩
  | @step s s' _ hstep ih =>
    cases hstep with
    | acq resp s =>
      rcases hslot : s.slot with _ | t
      · rcases resp with _ | t'
        · simpa [task_check_cycle, hslot] using ih
        · have h0 : s.inflight = 0 := ih.2 hslot
          simp [task_check_cycle, hslot, h0]
      · simpa [task_check_cycle, hslot] using ih
    | finish clears s h =>
      have h1 := ih.1
      refine ⟨by simp only [execFinish]; omega, fun _ => ?_⟩
      simp only [execFinish]
      omega

/-! ### Loop continuation (heartbeat and acquisition survive failures) -/

/-- Outcome of one heartbeat attempt: acknowledged (`code == 0`),
rejected by the server (non-zero code), or the POST raised. -/
inductive NetOutcome where
  | ok
  | svcError
  | transportFail
  deriving Repr, DecidableEq

/-- The body of `heartbeat_loop` (lines 300-315): the POST is attempted
every cycle; a non-zero code only logs a warning and a raised exception is
caught and logged, so the body always lets the loop continue (second
component). -/
def heartbeat_body (out : NetOutcome) : List Event × Bool :=
  match out with
  | .ok => ([Event.heartbeat], true)
  | .svcError => ([Event.heartbeat], true)
  | .transportFail => ([Event.heartbeat], true)

/-- Number of cycles `heartbeat_loop` executes out of `fuel` scheduling
opportunities starting at cycle index `i`: `while self.is_running` is
checked at the top of each cycle, then the body runs and the loop goes on
unless the body broke it (it never does). -/
def heartbeatCycles (running : Nat → Bool) (out : Nat → NetOutcome) (i : Nat) : Nat → Nat
  | 0 => 0
  | n + 1 =>
    if running i then
      if (heartbeat_body (out i)).2 then 1 + heartbeatCycles running out (i + 1) n
      else 1
    else 0

/-- Outcome of one fetch attempt in `task_check_loop`. -/
inductive FetchOutcome where
  | transportFail
  | noTask
  | task (t : WatchTask)
  deriving Repr, DecidableEq

/-- The body of `task_check_loop` (lines 320-333): when the slot is
occupied the body does nothing; otherwise it fetches, and both a raised
exception (caught and logged) and an empty/malformed response leave the
loop running. -/
def task_check_body (slot : Option WatchTask) (resp : FetchOutcome) :
    Option WatchTask × Bool :=
  match slot with
  | some t => (some t, true)
  | none =>
    match resp with
    | .transportFail => (none, true)
    | .noTask => (none, true)
    | .task t => (some t, true)

/-- Number of cycles `task_check_loop` executes out of `fuel` scheduling
opportunities starting at cycle index `i` with the given slot contents. -/
def taskCheckCycles (running : Nat → Bool) (resp : Nat → FetchOutcome) (i : Nat) :
    Nat → Option WatchTask → Nat
  | 0, _ => 0
  | n + 1, slot =>
    if running i then
      if (task_check_body slot (resp i)).2 then
        1 + taskCheckCycles running resp (i + 1) n (task_check_body slot (resp i)).1
      else 1
    else 0

/-- The heartbeat body never breaks the loop, whatever the outcome. -/
lemma heartbeat_body_continues (o : NetOutcome) : (heartbeat_body o).2 = true := by
  cases o <;> rfl

/-- The acquisition body never breaks the loop, whatever the outcome. -/
lemma task_check_body_continues (slot : Option WatchTask) (r : FetchOutcome) :
    (task_check_body slot r).2 = true := by
  cases slot <;> cases r <;> rfl

/-- While the flag stays set the heartbeat loop uses every opportunity. -/
lemma heartbeatCycles_eq (running : Nat → Bool) (out : Nat → NetOutcome) :
    ∀ n i, (∀ m, i ≤ m → m < i + n → running m = true) →
      heartbeatCycles running out i n = n := by
  intro n
  induction n with
  | zero => intro i _; rfl
  | succ n ih =>
    intro i h
    rw [heartbeatCycles, if_pos (h i le_rfl (by omega)), if_pos (heartbeat_body_continues _),
      ih (i + 1) (fun m hm hm' => h m (by omega) (by omega))]
    omega

/-- While the flag stays set the acquisition loop uses every opportunity. -/
lemma taskCheckCycles_eq (running : Nat → Bool) (resp : Nat → FetchOutcome) :
    ∀ n i slot, (∀ m, i ≤ m → m < i + n → running m = true) →
      taskCheckCycles running resp i n slot = n := by
  intro n
  induction n with
  | zero => intro i slot _; rfl
  | succ n ih =>
    intro i slot h
    rw [taskCheckCycles, if_pos (h i le_rfl (by omega)),
      if_pos (task_check_body_continues _ _),
      ih (i + 1) _ (fun m hm hm' => h m (by omega) (by omega))]
    omega

/-! ### Path lemmas for `execute_watch_task` -/

/-- Success path: session available, room opened, flag set throughout,
every player check passes — all remaining minutes are watched, then
teardown, completion log, slot cleared. -/
lemma execute_all_ok (t : WatchTask) (env : ExecEnv)
    (hwt : t.watched_time ≤ t.total_watch_time)
    (hinit : env.browserPresent = true ∨ env.initOk = true)
    (hopen : env.openOk = true)
    (hrun : ∀ m, t.watched_time ≤ m → m ≤ t.total_watch_time → env.running m = true)
    (halive : ∀ m, t.watched_time ≤ m → m < t.total_watch_time →
      (env.menv m).pageAlive = true) :
    execute_watch_task t env =
      ⟨(List.range' t.watched_time (t.total_watch_time - t.watched_time)).flatMap
          (minuteBlock t) ++ [Event.closeLive, Event.logComplete t.room_id],
        true, true⟩ := by
  have h1 : ¬ (env.browserPresent = false ∧ env.initOk = false) := by
    rcases hinit with h | h <;> simp [h]
  have hle := watchMinutes_all_ok t env.running env.menv env.errEnv env.ts
    (t.total_watch_time - t.watched_time) t.watched_time (by omega)
    (fun j hj hjT => hrun j hj (le_of_lt hjT)) halive
  rw [execute_watch_task, if_neg h1, if_neg (by simp [hopen])]
  simp only [hle, if_neg (by simp : ¬ (false = true)), hrun _ hwt le_rfl, if_pos rfl]
  simp

/-- Flag-cleared path: the flag goes false at minute `k` before the quota
is reached — minutes up to `k` are watched, iteration `k` does nothing,
teardown happens, but no completion log and the slot is NOT cleared. -/
lemma execute_stop (t : WatchTask) (env : ExecEnv) (k : Nat)
    (hwk : t.watched_time ≤ k) (hkT : k < t.total_watch_time)
    (hinit : env.browserPresent = true ∨ env.initOk = true)
    (hopen : env.openOk = true)
    (hrun : ∀ m, t.watched_time ≤ m → m < k → env.running m = true)
    (hstop : env.running k = false)
    (halive : ∀ m, t.watched_time ≤ m → m < k → (env.menv m).pageAlive = true) :
    execute_watch_task t env =
      ⟨(List.range' t.watched_time (k - t.watched_time)).flatMap (minuteBlock t) ++
          [Event.closeLive],
        false, false⟩ := by
  have h1 : ¬ (env.browserPresent = false ∧ env.initOk = false) := by
    rcases hinit with h | h <;> simp [h]
  have hle := watchMinutes_stop t env.running env.menv env.errEnv env.ts k hkT hstop
    (k - t.watched_time) t.watched_time (by omega) hrun halive
  rw [execute_watch_task, if_neg h1, if_neg (by simp [hopen])]
  simp only [hle, if_neg (by simp : ¬ (false = true)), hstop]

/-- Stream-error path: the player check fails at minute `k` — minutes up
to `k` are watched, then the error handler runs, the session is torn down
and the slot is cleared, with no completion log. -/
lemma execute_streamError (t : WatchTask) (env : ExecEnv) (k : Nat)
    (hwk : t.watched_time ≤ k) (hkT : k < t.total_watch_time)
    (hinit : env.browserPresent = true ∨ env.initOk = true)
    (hopen : env.openOk = true)
    (hrun : ∀ m, t.watched_time ≤ m → m ≤ k → env.running m = true)
    (hfail : (env.menv k).pageAlive = false)
    (halive : ∀ m, t.watched_time ≤ m → m < k → (env.menv m).pageAlive = true) :
    execute_watch_task t env =
      ⟨(List.range' t.watched_time (k - t.watched_time)).flatMap (minuteBlock t) ++
          (handle_stream_error env.errEnv t.id ((env.menv k).failMsg) env.ts ++
            [Event.closeLive]),
        true, false⟩ := by
  have h1 : ¬ (env.browserPresent = false ∧ env.initOk = false) := by
    rcases hinit with h | h <;> simp [h]
  have hle := watchMinutes_streamError t env.running env.menv env.errEnv env.ts k hkT
    (hrun k hwk le_rfl) hfail
    (k - t.watched_time) t.watched_time (by omega)
    (fun j hj hjk => hrun j hj (le_of_lt hjk)) halive
  rw [execute_watch_task, if_neg h1, if_neg (by simp [hopen])]
  simp only [hle]
  rw [if_pos trivial]

/-- Natural-completion path with the flag cleared by the time the loop
ends: every remaining minute is watched, the session is torn down, but the
post-loop `if self.is_running` fails — no completion log and the slot is
NOT cleared. -/
lemma execute_complete_flag_cleared (t : WatchTask) (env : ExecEnv)
    (hwt : t.watched_time ≤ t.total_watch_time)
    (hinit : env.browserPresent = true ∨ env.initOk = true)
    (hopen : env.openOk = true)
    (hrun : ∀ m, t.watched_time ≤ m → m < t.total_watch_time → env.running m = true)
    (hstopT : env.running t.total_watch_time = false)
    (halive : ∀ m, t.watched_time ≤ m → m < t.total_watch_time →
      (env.menv m).pageAlive = true) :
    execute_watch_task t env =
      ⟨(List.range' t.watched_time (t.total_watch_time - t.watched_time)).flatMap
          (minuteBlock t) ++ [Event.closeLive],
        false, false⟩ := by
  have h1 : ¬ (env.browserPresent = false ∧ env.initOk = false) := by
    rcases hinit with h | h <;> simp [h]
  have hle := watchMinutes_all_ok t env.running env.menv env.errEnv env.ts
    (t.total_watch_time - t.watched_time) t.watched_time (by omega) hrun halive
  rw [execute_watch_task, if_neg h1, if_neg (by simp [hopen])]
  simp only [hle, if_neg (by simp : ¬ (false = true)), hstopT]

/-! ### Progress arithmetic -/

/-- Later minutes report strictly larger progress. -/
lemma progressOf_lt (T a b : Nat) (hT : 0 < T) (hab : a < b) :
    progressOf a T < progressOf b T := by
  have hT' : (0 : ℚ) < (T : ℚ) := by exact_mod_cast hT
  have hab' : ((a : ℚ) + 1) < ((b : ℚ) + 1) := by
    have : (a : ℚ) < (b : ℚ) := by exact_mod_cast hab
    linarith
  unfold progressOf
  gcongr

/-- The report of minute index `T - 1` carries progress exactly 100. -/
lemma progressOf_last (T : Nat) (hT : 0 < T) : progressOf (T - 1) T = 100 := by
  unfold progressOf
  have hc : ((T - 1 : Nat) : ℚ) + 1 = (T : ℚ) := by
    have h1 : (1 : Nat) ≤ T := hT
    push_cast [Nat.cast_sub h1]
    ring
  rw [hc, div_self (by exact_mod_cast hT.ne'), one_mul]

/-- Progress is exactly 100 only at the last minute index. -/
lemma progressOf_eq_100_iff (T a : Nat) (hT : 0 < T) :
    progressOf a T = 100 ↔ a + 1 = T := by
  have hT0 : (T : ℚ) ≠ 0 := by exact_mod_cast hT.ne'
  unfold progressOf
  rw [div_mul_eq_mul_div, div_eq_iff hT0]
  constructor
  · intro h
    have : ((a : ℚ) + 1) = (T : ℚ) := by linarith
    exact_mod_cast this
  · intro h
    have : ((a : ℚ) + 1) = (T : ℚ) := by exact_mod_cast h
    linarith

/-! ### Concrete fixtures used by witnesses and counterexamples -/

/-- The spec's end-to-end sample task. -/
def sampleTask : WatchTask := ⟨1, "123", 3, 0⟩

/-- A minute in which every check and report succeeds. -/
def allOkMinute : MinuteEnv := ⟨true, "", true, true⟩

/-- An environment in which everything succeeds and the flag stays set. -/
def allOkEnv : ExecEnv :=
  ⟨true, true, true, true, fun _ => true, fun _ => allOkMinute,
    ⟨true, true, 200⟩, "20240101_000000"⟩

/-- An environment whose player check fails at minute 1. -/
def failAt1Env : ExecEnv :=
  ⟨true, true, true, true, fun _ => true,
    fun m => if m = 1 then ⟨false, "player timeout", true, true⟩ else allOkMinute,
    ⟨true, true, 200⟩, "20240101_000000"⟩

/-- An environment with no browser in which `init_browser` fails. -/
def initFailEnv : ExecEnv :=
  ⟨false, false, true, true, fun _ => true, fun _ => allOkMinute,
    ⟨true, true, 200⟩, "20240101_000000"⟩

/-- An environment in which `watch_live_room` fails. -/
def openFailEnv : ExecEnv :=
  ⟨true, true, true, false, fun _ => true, fun _ => allOkMinute,
    ⟨true, true, 200⟩, "20240101_000000"⟩

/-- An environment whose running flag is cleared from minute 1 on. -/
def stopAt1Env : ExecEnv :=
  ⟨true, true, true, true, fun n => n == 0, fun _ => allOkMinute,
    ⟨true, true, 200⟩, "20240101_000000"⟩

/-- A two-minute task for the flag-cleared scenarios. -/
def stopTask : WatchTask := ⟨9, "456", 2, 0⟩

/-! ### The claims -/

/-- C1: in every cycle of the task-acquisition loop a fetch-task request
is issued iff the current-task slot is empty (an occupied slot makes the
cycle a no-op), and in every state reachable by interleaving acquisition
cycles with execution terminations at most one watch task is in flight. -/
theorem c1_fetch_iff_slot_empty (s : AcqState) (resp : Option WatchTask)
    (hs : Reachable s) :
    (Event.fetchTask ∈ (task_check_cycle s resp).1 ↔ s.slot = none) ∧
      s.inflight ≤ 1 := by
  refine ⟨?_, (reachable_inflight hs).1⟩
  rcases h : s.slot with _ | t
  · rcases resp with _ | t' <;> simp [task_check_cycle, h]
  · simp [task_check_cycle, h]

/-- Witness for C1: the initial state, with an empty fetch response. -/
theorem c1_fetch_iff_slot_empty_witness :
    (Event.fetchTask ∈ (task_check_cycle ⟨none, 0⟩ none).1 ↔
      (⟨none, 0⟩ : AcqState).slot = none) ∧
      (⟨none, 0⟩ : AcqState).inflight ≤ 1 :=
  c1_fetch_iff_slot_empty ⟨none, 0⟩ none Reachable.init

/-- C2: on the success path (session available, room opened, flag set
throughout, every player check passes) exactly
`total_watch_time - watched_time` progress reports are sent, the report of
minute `m` carrying watched time `m + 1` and progress `(m+1)/T*100`;
progress is strictly increasing across the reports and equals 100 exactly
on the report of minute `T - 1` (watched time `T`). -/
theorem c2_progress_reports (t : WatchTask) (env : ExecEnv)
    (hwt : t.watched_time ≤ t.total_watch_time)
    (hinit : env.browserPresent = true ∨ env.initOk = true)
    (hopen : env.openOk = true)
    (hrun : ∀ m, t.watched_time ≤ m → m ≤ t.total_watch_time → env.running m = true)
    (halive : ∀ m, t.watched_time ≤ m → m < t.total_watch_time →
      (env.menv m).pageAlive = true) :
    progressReports (execute_watch_task t env).events =
      (List.range' t.watched_time (t.total_watch_time - t.watched_time)).map
        (fun m => Event.progressReport t.id (m + 1) (progressOf m t.total_watch_time)) ∧
    (progressReports (execute_watch_task t env).events).length =
      t.total_watch_time - t.watched_time ∧
    (progressReports (execute_watch_task t env).events).Pairwise
      (fun a b => progressValue a < progressValue b) ∧
    (t.watched_time < t.total_watch_time →
      Event.progressReport t.id t.total_watch_time 100 ∈
        progressReports (execute_watch_task t env).events) ∧
    (∀ e ∈ progressReports (execute_watch_task t env).events,
      progressValue e = 100 → e = Event.progressReport t.id t.total_watch_time 100) := by
  have hex := execute_all_ok t env hwt hinit hopen hrun halive
  have key : progressReports (execute_watch_task t env).events =
      (List.range' t.watched_time (t.total_watch_time - t.watched_time)).map
        (fun m => Event.progressReport t.id (m + 1) (progressOf m t.total_watch_time)) := by
    rw [hex]
    show progressReports (_ ++ _) = _
    unfold progressReports
    rw [List.filter_append]
    have h2 : List.filter isProgressReport
        [Event.closeLive, Event.logComplete t.room_id] = [] := rfl
    rw [h2, List.append_nil]
    exact progressReports_flatMap t _
  refine ⟨key, ?_, ?_, ?_, ?_⟩
  · rw [key, List.length_map, List.length_range']
  · rcases Nat.eq_zero_or_pos t.total_watch_time with hT | hT
    · have hw0 : t.watched_time = 0 := by omega
      rw [key, hw0, hT]
      simp
    · rw [key, List.pairwise_map]
      exact (List.pairwise_lt_range' t.watched_time
        (t.total_watch_time - t.watched_time)).imp
        (fun {a b} hab => progressOf_lt t.total_watch_time a b hT hab)
  · intro hlt
    have hT : 0 < t.total_watch_time := by omega
    have hmem : t.total_watch_time - 1 ∈
        List.range' t.watched_time (t.total_watch_time - t.watched_time) := by
      rw [List.mem_range'_1]
      omega
    have hval : (fun m => Event.progressReport t.id (m + 1)
        (progressOf m t.total_watch_time)) (t.total_watch_time - 1) =
        Event.progressReport t.id t.total_watch_time 100 := by
      simp only [progressOf_last _ hT, Nat.sub_add_cancel hT]
    rw [key]
    exact hval ▸ List.mem_map_of_mem _ hmem
  · intro e he hpe
    rw [key] at he
    obtain ⟨m, hm, rfl⟩ := List.mem_map.mp he
    rw [List.mem_range'_1] at hm
    have hT : 0 < t.total_watch_time := by omega
    have h100 : progressOf m t.total_watch_time = 100 := hpe
    have hm1 : m + 1 = t.total_watch_time := (progressOf_eq_100_iff _ _ hT).mp h100
    rw [h100, hm1]

/-- Witness for C2: the spec's sample task `{id 1, room "123", T = 3,
w = 0}` in the all-success environment. -/
theorem c2_progress_reports_witness :
    progressReports (execute_watch_task sampleTask allOkEnv).events =
      (List.range' sampleTask.watched_time
          (sampleTask.total_watch_time - sampleTask.watched_time)).map
        (fun m => Event.progressReport sampleTask.id (m + 1)
          (progressOf m sampleTask.total_watch_time)) ∧
    (progressReports (execute_watch_task sampleTask allOkEnv).events).length =
      sampleTask.total_watch_time - sampleTask.watched_time ∧
    (progressReports (execute_watch_task sampleTask allOkEnv).events).Pairwise
      (fun a b => progressValue a < progressValue b) ∧
    (sampleTask.watched_time < sampleTask.total_watch_time →
      Event.progressReport sampleTask.id sampleTask.total_watch_time 100 ∈
        progressReports (execute_watch_task sampleTask allOkEnv).events) ∧
    (∀ e ∈ progressReports (execute_watch_task sampleTask allOkEnv).events,
      progressValue e = 100 →
        e = Event.progressReport sampleTask.id sampleTask.total_watch_time 100) :=
  c2_progress_reports sampleTask allOkEnv (by decide) (Or.inl rfl) rfl
    (fun _ _ _ => rfl) (fun _ _ _ => rfl)

/-- C3: if the player-alive check fails at minute `k` (with the error
handler's screenshot and POST both going through), exactly one error
report is sent, carrying the task id, the exception message and the
snapshot path; the session is torn down; the slot is cleared; and the only
progress reports are those of the minutes before `k`. -/
theorem c3_stream_error (t : WatchTask) (env : ExecEnv) (k : Nat)
    (hwk : t.watched_time ≤ k) (hkT : k < t.total_watch_time)
    (hinit : env.browserPresent = true ∨ env.initOk = true)
    (hopen : env.openOk = true)
    (hrun : ∀ m, t.watched_time ≤ m → m ≤ k → env.running m = true)
    (halive : ∀ m, t.watched_time ≤ m → m < k → (env.menv m).pageAlive = true)
    (hfail : (env.menv k).pageAlive = false)
    (hshot : env.errEnv.screenshotOk = true)
    (hrep : env.errEnv.reportTransportOk = true) :
    errorReports (execute_watch_task t env).events =
      [Event.errorReport t.id ((env.menv k).failMsg) (screenshot_path t.id env.ts)] ∧
    Event.closeLive ∈ (execute_watch_task t env).events ∧
    (execute_watch_task t env).slotCleared = true ∧
    progressReports (execute_watch_task t env).events =
      (List.range' t.watched_time (k - t.watched_time)).map
        (fun m => Event.progressReport t.id (m + 1) (progressOf m t.total_watch_time)) := by
  have hex := execute_streamError t env k hwk hkT hinit hopen hrun hfail halive
  have hhandler : handle_stream_error env.errEnv t.id ((env.menv k).failMsg) env.ts =
      [Event.screenshotTaken (screenshot_path t.id env.ts),
        Event.errorReport t.id ((env.menv k).failMsg) (screenshot_path t.id env.ts)] := by
    unfold handle_stream_error
    rw [if_pos (by simp [hshot]), if_pos (by simp [hrep])]
  rw [hex]
  refine ⟨?_, ?_, rfl, ?_⟩
  · show errorReports (_ ++ _) = _
    unfold errorReports
    rw [List.filter_append]
    have h1 : List.filter isErrorReport
        ((List.range' t.watched_time (k - t.watched_time)).flatMap (minuteBlock t)) = [] :=
      errorReports_flatMap t _
    rw [h1, hhandler]
    rfl
  · simp
  · show progressReports (_ ++ _) = _
    unfold progressReports
    rw [List.filter_append, hhandler]
    have h2 : List.filter isProgressReport
        ([Event.screenshotTaken (screenshot_path t.id env.ts),
          Event.errorReport t.id ((env.menv k).failMsg) (screenshot_path t.id env.ts)] ++
          [Event.closeLive]) = [] := rfl
    rw [h2, List.append_nil]
    exact progressReports_flatMap t _

/-- Witness for C3: the sample task with the player check failing at
minute 1 (the spec's second end-to-end scenario). -/
theorem c3_stream_error_witness :
    errorReports (execute_watch_task sampleTask failAt1Env).events =
      [Event.errorReport sampleTask.id ((failAt1Env.menv 1).failMsg)
        (screenshot_path sampleTask.id failAt1Env.ts)] ∧
    Event.closeLive ∈ (execute_watch_task sampleTask failAt1Env).events ∧
    (execute_watch_task sampleTask failAt1Env).slotCleared = true ∧
    progressReports (execute_watch_task sampleTask failAt1Env).events =
      (List.range' sampleTask.watched_time (1 - sampleTask.watched_time)).map
        (fun m => Event.progressReport sampleTask.id (m + 1)
          (progressOf m sampleTask.total_watch_time)) :=
  c3_stream_error sampleTask failAt1Env 1 (by decide) (by decide) (Or.inl rfl) rfl
    (fun _ _ _ => rfl)
    (fun m _ hm => by
      have hm0 : m = 0 := by omega
      subst hm0
      rfl)
    rfl rfl rfl

/-- A task already watched to quota on entry. -/
def doneTask : WatchTask := ⟨2, "789", 4, 4⟩

/-- C4 counterexample: with no browser on entry and `init_browser`
failing, the claim that the slot is cleared is false — lines 359-362
`return` without ever assigning `self.current_task = None`. -/
theorem c4_counterexample :
    ¬ ((execute_watch_task sampleTask initFailEnv).slotCleared = true) := by
  decide

/-- C4 amended: if no browser session exists and creation fails,
execution terminates having sent no request of any kind, and the
current-task slot is NOT cleared — the task stays in the slot. -/
theorem c4_init_fail_no_requests (t : WatchTask) (env : ExecEnv)
    (hb : env.browserPresent = false) (hi : env.initOk = false) :
    (execute_watch_task t env).events = [] ∧
    (execute_watch_task t env).slotCleared = false := by
  rw [execute_watch_task, if_pos ⟨hb, hi⟩]
  exact ⟨rfl, rfl⟩

/-- Witness for the amended C4. -/
theorem c4_init_fail_no_requests_witness :
    (execute_watch_task sampleTask initFailEnv).events = [] ∧
    (execute_watch_task sampleTask initFailEnv).slotCleared = false :=
  c4_init_fail_no_requests sampleTask initFailEnv rfl rfl

/-- C5: a task with `watched_time == total_watch_time` on entry (flag
set) performs zero minute iterations — its whole trace is the teardown and
the completion log, with no progress or error report — and the slot is
cleared as a completed task. -/
theorem c5_already_done (t : WatchTask) (env : ExecEnv)
    (heq : t.watched_time = t.total_watch_time)
    (hinit : env.browserPresent = true ∨ env.initOk = true)
    (hopen : env.openOk = true)
    (hrunT : env.running t.total_watch_time = true) :
    (execute_watch_task t env).events = [Event.closeLive, Event.logComplete t.room_id] ∧
    progressReports (execute_watch_task t env).events = [] ∧
    errorReports (execute_watch_task t env).events = [] ∧
    (execute_watch_task t env).slotCleared = true ∧
    (execute_watch_task t env).completeLogged = true := by
  have hex := execute_all_ok t env (le_of_eq heq) hinit hopen
    (fun m hm hm' => by
      have hmT : m = t.total_watch_time := by omega
      rw [hmT]
      exact hrunT)
    (fun m hm hm' => absurd hm' (by omega))
  rw [hex, heq, Nat.sub_self]
  refine ⟨by simp, ?_, ?_, rfl, rfl⟩
  · simp [progressReports, isProgressReport]
  · simp [errorReports, isErrorReport]

/-- Witness for C5: a task with quota 4 already watched 4. -/
theorem c5_already_done_witness :
    (execute_watch_task doneTask allOkEnv).events =
      [Event.closeLive, Event.logComplete doneTask.room_id] ∧
    progressReports (execute_watch_task doneTask allOkEnv).events = [] ∧
    errorReports (execute_watch_task doneTask allOkEnv).events = [] ∧
    (execute_watch_task doneTask allOkEnv).slotCleared = true ∧
    (execute_watch_task doneTask allOkEnv).completeLogged = true :=
  c5_already_done doneTask allOkEnv rfl (Or.inl rfl) rfl rfl

/-- C6: if `watch_live_room` fails (navigation error, player-selector
timeout or readiness timeout), execution terminates with the slot cleared
and without any server contact, in particular no error report. -/
theorem c6_open_failed (t : WatchTask) (env : ExecEnv)
    (hinit : env.browserPresent = true ∨ env.initOk = true)
    (hopen : env.openOk = false) :
    (execute_watch_task t env).events = [] ∧
    errorReports (execute_watch_task t env).events = [] ∧
    (execute_watch_task t env).slotCleared = true := by
  have h1 : ¬ (env.browserPresent = false ∧ env.initOk = false) := by
    rcases hinit with h | h <;> simp [h]
  rw [execute_watch_task, if_neg h1, if_pos hopen]
  exact ⟨rfl, rfl, rfl⟩

/-- Witness for C6. -/
theorem c6_open_failed_witness :
    (execute_watch_task sampleTask openFailEnv).events = [] ∧
    errorReports (execute_watch_task sampleTask openFailEnv).events = [] ∧
    (execute_watch_task sampleTask openFailEnv).slotCleared = true :=
  c6_open_failed sampleTask openFailEnv (Or.inl rfl) rfl

/-- C7: neither the heartbeat loop nor the acquisition loop is ever ended
by a server non-success response or a transport failure: whatever the
outcome streams contain — including `N` consecutive transport failures —
each loop executes all of its first `N + 1` cycles as long as the flag
stays set. -/
theorem c7_loops_survive_failures (running : Nat → Bool) (out : Nat → NetOutcome)
    (resp : Nat → FetchOutcome) (slot : Option WatchTask) (N : Nat)
    (hrun : ∀ m, m ≤ N → running m = true) :
    heartbeatCycles running out 0 (N + 1) = N + 1 ∧
    taskCheckCycles running resp 0 (N + 1) slot = N + 1 :=
  ⟨heartbeatCycles_eq running out (N + 1) 0 (fun m _ hm' => hrun m (by omega)),
    taskCheckCycles_eq running resp (N + 1) 0 slot (fun m _ hm' => hrun m (by omega))⟩

/-- Witness for C7: three straight transport failures, cycle 4 still
runs. -/
theorem c7_loops_survive_failures_witness :
    heartbeatCycles (fun _ => true) (fun _ => NetOutcome.transportFail) 0 4 = 4 ∧
    taskCheckCycles (fun _ => true) (fun _ => FetchOutcome.transportFail) 0 4 none = 4 :=
  c7_loops_survive_failures (fun _ => true) (fun _ => NetOutcome.transportFail)
    (fun _ => FetchOutcome.transportFail) none 3 (fun _ _ => rfl)

/-- C8 counterexample: a 2-minute task whose flag is cleared from minute 1
on — the loop exits early, the session is torn down, but the slot is NOT
cleared, because line 420 (`self.current_task = None`) is guarded by
`if self.is_running`; this refutes the claim that every loop end clears
the slot. -/
theorem c8_counterexample :
    Event.closeLive ∈ (execute_watch_task stopTask stopAt1Env).events ∧
    ¬ ((execute_watch_task stopTask stopAt1Env).slotCleared = true) := by
  have hex := execute_stop stopTask stopAt1Env 1 (by decide) (by decide) (Or.inl rfl) rfl
    (fun m _ hm => by
      have hm0 : m = 0 := by omega
      subst hm0
      rfl)
    rfl
    (fun _ _ _ => rfl)
  rw [hex]
  exact ⟨by simp, by simp⟩

/-- C8 amended: whenever the minute loop ends — by reaching
`total_watch_time` or by a flag-cleared early exit — the Viewer Session is
torn down; the slot, however, is cleared only when the running flag is
still set at loop end, and on a flag-cleared exit it remains occupied. -/
theorem c8_loop_end_teardown (t : WatchTask) (env : ExecEnv)
    (hwt : t.watched_time ≤ t.total_watch_time)
    (hinit : env.browserPresent = true ∨ env.initOk = true)
    (hopen : env.openOk = true)
    (halive : ∀ m, t.watched_time ≤ m → m < t.total_watch_time →
      (env.menv m).pageAlive = true) :
    ((∀ m, t.watched_time ≤ m → m ≤ t.total_watch_time → env.running m = true) →
      Event.closeLive ∈ (execute_watch_task t env).events ∧
      (execute_watch_task t env).slotCleared = true) ∧
    (∀ k, t.watched_time ≤ k → k ≤ t.total_watch_time → env.running k = false →
      (∀ m, t.watched_time ≤ m → m < k → env.running m = true) →
      Event.closeLive ∈ (execute_watch_task t env).events ∧
      (execute_watch_task t env).slotCleared = false) := by
  constructor
  · intro hrun
    rw [execute_all_ok t env hwt hinit hopen hrun halive]
    exact ⟨by simp, rfl⟩
  · intro k hwk hkT hstop hrun
    rcases Nat.lt_or_ge k t.total_watch_time with hk | hk
    · rw [execute_stop t env k hwk hk hinit hopen hrun hstop
        (fun m hm hm' => halive m hm (by omega))]
      exact ⟨by simp, rfl⟩
    · have hkeq : k = t.total_watch_time := by omega
      subst hkeq
      rw [execute_complete_flag_cleared t env hwt hinit hopen hrun hstop halive]
      exact ⟨by simp, rfl⟩

/-- Witness for the amended C8. -/
theorem c8_loop_end_teardown_witness :
    ((∀ m, stopTask.watched_time ≤ m → m ≤ stopTask.total_watch_time →
        stopAt1Env.running m = true) →
      Event.closeLive ∈ (execute_watch_task stopTask stopAt1Env).events ∧
      (execute_watch_task stopTask stopAt1Env).slotCleared = true) ∧
    (∀ k, stopTask.watched_time ≤ k → k ≤ stopTask.total_watch_time →
      stopAt1Env.running k = false →
      (∀ m, stopTask.watched_time ≤ m → m < k → stopAt1Env.running m = true) →
      Event.closeLive ∈ (execute_watch_task stopTask stopAt1Env).events ∧
      (execute_watch_task stopTask stopAt1Env).slotCleared = false) :=
  c8_loop_end_teardown stopTask stopAt1Env (by decide) (Or.inl rfl) rfl
    (fun _ _ _ => rfl)

/-- C9: clearing the running flag at minute `k` exits the loop at the top
of iteration `k` — that iteration contributes neither its one-minute sleep
nor its progress report (exactly `k - watched_time` of each are in the
trace) — and no "task complete" success log is emitted. -/
theorem c9_flag_clear_stops_loop (t : WatchTask) (env : ExecEnv) (k : Nat)
    (hwk : t.watched_time ≤ k) (hkT : k < t.total_watch_time)
    (hinit : env.browserPresent = true ∨ env.initOk = true)
    (hopen : env.openOk = true)
    (hrun : ∀ m, t.watched_time ≤ m → m < k → env.running m = true)
    (hstop : env.running k = false)
    (halive : ∀ m, t.watched_time ≤ m → m < k → (env.menv m).pageAlive = true) :
    (execute_watch_task t env).events.count Event.sleepMinute = k - t.watched_time ∧
    (progressReports (execute_watch_task t env).events).length = k - t.watched_time ∧
    Event.logComplete t.room_id ∉ (execute_watch_task t env).events ∧
    (execute_watch_task t env).completeLogged = false := by
  have hex := execute_stop t env k hwk hkT hinit hopen hrun hstop halive
  rw [hex]
  refine ⟨?_, ?_, ?_, rfl⟩
  · show List.count _ (_ ++ _) = _
    rw [List.count_append, count_sleep_flatMap, List.length_range']
    have h0 : List.count Event.sleepMinute [Event.closeLive] = 0 := rfl
    rw [h0]
    omega
  · show (progressReports (_ ++ _)).length = _
    unfold progressReports
    rw [List.filter_append]
    have h1 : List.filter isProgressReport [Event.closeLive] = [] := rfl
    rw [h1, List.append_nil]
    have h2 := progressReports_flatMap t (List.range' t.watched_time (k - t.watched_time))
    unfold progressReports at h2
    rw [h2, List.length_map, List.length_range']
  · intro hmem
    rcases List.mem_append.mp hmem with h | h
    · exact logComplete_not_mem_flatMap t _ _ h
    · simp at h

/-- Witness for C9: the 2-minute task stopped at minute 1 — one sleep, one
progress report, no completion log. -/
theorem c9_flag_clear_stops_loop_witness :
    (execute_watch_task stopTask stopAt1Env).events.count Event.sleepMinute =
      1 - stopTask.watched_time ∧
    (progressReports (execute_watch_task stopTask stopAt1Env).events).length =
      1 - stopTask.watched_time ∧
    Event.logComplete stopTask.room_id ∉ (execute_watch_task stopTask stopAt1Env).events ∧
    (execute_watch_task stopTask stopAt1Env).completeLogged = false :=
  c9_flag_clear_stops_loop stopTask stopAt1Env 1 (by decide) (by decide) (Or.inl rfl) rfl
    (fun m _ hm => by
      have hm0 : m = 0 := by omega
      subst hm0
      rfl)
    rfl
    (fun _ _ _ => rfl)

/-- C10: if capturing the screenshot in `handle_stream_error` raises (for
example because `self.page` is `None`), the error-report POST is never
reached — no report and indeed no event is produced — and the exception is
absorbed: the handler returns normally. -/
theorem c10_no_report_without_screenshot (env : ErrorEnv) (taskId : Nat)
    (msg ts : String) (hshot : env.screenshotOk = false) :
    handle_stream_error env taskId msg ts = [] := by
  unfold handle_stream_error
  rw [if_neg (by simp [hshot])]

/-- Witness for C10. -/
theorem c10_no_report_without_screenshot_witness :
    handle_stream_error ⟨false, true, 200⟩ 1 "no page" "20240101_000000" = [] :=
  c10_no_report_without_screenshot ⟨false, true, 200⟩ 1 "no page" "20240101_000000" rfl

end BScript
